import Mathlib

/-!
Verification development for the SisHotel maintenance-tracking application
(`app.py`).  The persistent SQLite store is embedded shallowly as a `Store`
structure; each data-access function and the schema-migration ladder are
translated into pure Lean functions over that structure.
-/

/-- Reproduces the Python format spec 02d used by the helper room_code:
decimal representation, left-padded with zeros to at least two characters
(a sign counts as a character). -/
def pad2 (i : Int) : String :=
  if i < 0 ∨ 10 ≤ i then toString i else "0" ++ toString i

/-- Embeds the helper room_code from app.py: the concatenation of the
02d-padded floor and apartment numbers. -/
def room_code (floor apt : Int) : String :=
  pad2 floor ++ pad2 apt

/-- Helper for `py_strip`: drop leading whitespace characters. -/
def dropLeadingWs : List Char → List Char
  | [] => []
  | c :: cs => if c.isWhitespace then dropLeadingWs cs else c :: cs

/-- Embeds Python's `str.strip()`: remove whitespace from both ends. -/
def py_strip (s : String) : String :=
  String.mk (dropLeadingWs (dropLeadingWs s.toList.reverse).reverse)

/-- Embeds the Python idiom `(x.strip() or None)`: a blank string becomes SQL
NULL, anything else is stored stripped. -/
def stripOrNone (x : String) : Option String :=
  if py_strip x = "" then none else some (py_strip x)

/-- ASCII-only lower casing of one character, as used by SQLite's NOCASE
collation (only A-Z fold). -/
def lower_char (c : Char) : Char :=
  if 'A' ≤ c ∧ c ≤ 'Z' then Char.ofNat (c.toNat + 32) else c

/-- ASCII-only lower casing of a string (SQLite NOCASE collation). -/
def ascii_lower (s : String) : String :=
  String.mk (s.toList.map lower_char)

/-- Codepoint-wise strict order on character lists; agrees with SQLite's
binary (memcmp) comparison of UTF-8 text. -/
def charsLt : List Char → List Char → Bool
  | [], [] => false
  | [], _ :: _ => true
  | _ :: _, [] => false
  | a :: as, b :: bs =>
    if a.toNat < b.toNat then true
    else if b.toNat < a.toNat then false
    else charsLt as bs

/-- Strict binary order on strings (SQLite TEXT comparison). -/
def strLtB (a b : String) : Bool := charsLt a.toList b.toList

/-- Non-strict binary order on strings. -/
def strLeB (a b : String) : Bool := !(strLtB b a)

/-- Strict order on nullable strings with SQL semantics: NULL sorts first. -/
def optStrLtB : Option String → Option String → Bool
  | none, none => false
  | none, some _ => true
  | some _, none => false
  | some a, some b => strLtB a b

/-- Non-strict order on nullable strings. -/
def optStrLeB (a b : Option String) : Bool := !(optStrLtB b a)

/-- Numeric value of a decimal digit character. -/
def digit_val (c : Char) : Option Int :=
  if '0' ≤ c ∧ c ≤ '9' then some (Int.ofNat (c.toNat - 48)) else none

/-- Modelled from the spec: re-deriving `(floor, apt)` from a 4-character room
code, reading the first two characters as the floor and the last two as the
apartment ("floor:2digits ++ apt:2digits").  The source never parses a room
code back; the spec's round-trip property references this inverse reading. -/
def decode_room_code (s : String) : Option (Int × Int) :=
  match s.toList with
  | [a, b, c, d] =>
    match digit_val a, digit_val b, digit_val c, digit_val d with
    | some x, some y, some z, some w => some (10 * x + y, 10 * z + w)
    | _, _, _, _ => none
  | _ => none

/-- Row of the `reports` table.  Columns added by migrations are nullable. -/
structure ReportRow where
  id : Nat
  report_date : String
  technician : String
  created_at : String
  floor : Option Int
  apt : Option Int
  room_code : Option String
  room : Option Int
deriving DecidableEq, Repr

/-- Row of the `report_items` table. -/
structure ReportItemRow where
  id : Nat
  report_id : Nat
  item_id : Option Nat
  item : String
  status : String
  note : Option String
  resolved_at : Option String
  resolved_by : Option String
  resolution_note : Option String
deriving DecidableEq, Repr

/-- Row of the `maintenance_items` catalog table. -/
structure MaintItemRow where
  id : Nat
  name : String
  active : Bool
  created_at : String
deriving DecidableEq, Repr

/-- Row of the `general_maintenance` table. -/
structure GmRow where
  id : Nat
  maint_date : String
  place : String
  description : String
  status : String
  technician : String
  note : Option String
  created_at : String
  resolved_at : Option String
  resolved_by : Option String
  resolution_note : Option String
deriving DecidableEq, Repr

/-- The SQLite database file as a value: table contents, which migration-added
columns and tables exist, the created index names, and the AUTOINCREMENT
counters for each table's next rowid. -/
structure Store where
  schemaMeta : Option Nat
  reports : List ReportRow
  report_items : List ReportItemRow
  maintenance_items : List MaintItemRow
  general_maintenance : List GmRow
  reportsHasFloor : Bool
  reportsHasApt : Bool
  reportsHasRoomCode : Bool
  reportsHasRoom : Bool
  itemsHasItemId : Bool
  itemsHasResolvedAt : Bool
  itemsHasResolvedBy : Bool
  itemsHasResolutionNote : Bool
  hasMaintenanceItemsTable : Bool
  indexes : List String
  nextReportId : Nat
  nextReportItemId : Nat
  nextMaintItemId : Nat
  nextGmId : Nat
deriving DecidableEq, Repr

/-- Embeds `ensure_schema_meta`: CREATE TABLE IF NOT EXISTS plus
INSERT OR IGNORE of the singleton row `(1, 1)`. -/
def ensure_schema_meta (s : Store) : Store :=
  match s.schemaMeta with
  | some _ => s
  | none => { s with schemaMeta := some 1 }

/-- Embeds `get_schema_version`: read the singleton version row. -/
def get_schema_version (s : Store) : Nat :=
  s.schemaMeta.getD 1

/-- Embeds `set_schema_version`. -/
def set_schema_version (s : Store) (v : Nat) : Store :=
  { s with schemaMeta := some v }

/-- Embeds `CREATE INDEX IF NOT EXISTS name ...`. -/
def create_index_if_not_exists (s : Store) (name : String) : Store :=
  if name ∈ s.indexes then s else { s with indexes := s.indexes ++ [name] }

/-- Backfill statement of the v1→v2 step:
`UPDATE reports SET floor = ((room-1)/18)+1, apt = ((room-1)%18)+1 WHERE
floor IS NULL OR apt IS NULL;` — SQLite integer division truncates toward
zero (`Int.div`/`Int.mod`), and NULL `room` propagates to NULL results. -/
def backfill_floor_apt (r : ReportRow) : ReportRow :=
  if r.floor = none ∨ r.apt = none then
    { r with floor := r.room.map (fun m => Int.tdiv (m - 1) 18 + 1),
             apt := r.room.map (fun m => Int.tmod (m - 1) 18 + 1) }
  else r

/-- Backfill statement of the v1→v2 step:
`UPDATE reports SET room_code = printf('%02d%02d', floor, apt) WHERE
room_code IS NULL OR room_code = '';` — SQLite printf renders a NULL `%d`
argument as 0. -/
def backfill_room_code (r : ReportRow) : ReportRow :=
  if r.room_code = none ∨ r.room_code = some "" then
    { r with room_code := some (pad2 (r.floor.getD 0) ++ pad2 (r.apt.getD 0)) }
  else r

/-- The `v < 2` block of `migrate_if_needed`: guarded ALTER TABLE ADD COLUMN
for floor/apt/room_code (a freshly added column is NULL in every row), the two
backfill UPDATEs (only when the legacy `room` column exists), three indexes,
then version 2. -/
def migrate_v1_to_v2 (s : Store) : Store :=
  let s := if s.reportsHasFloor then s else
    { s with reportsHasFloor := true,
             reports := s.reports.map (fun r => { r with floor := none }) }
  let s := if s.reportsHasApt then s else
    { s with reportsHasApt := true,
             reports := s.reports.map (fun r => { r with apt := none }) }
  let s := if s.reportsHasRoomCode then s else
    { s with reportsHasRoomCode := true,
             reports := s.reports.map (fun r => { r with room_code := none }) }
  let s := if s.reportsHasRoom then
      let s := { s with reports := s.reports.map backfill_floor_apt }
      { s with reports := s.reports.map backfill_room_code }
    else s
  let s := create_index_if_not_exists s "idx_reports_date"
  let s := create_index_if_not_exists s "idx_reports_roomcode"
  let s := create_index_if_not_exists s "idx_reports_floor_apt"
  set_schema_version s 2

/-- The `v < 3` block of `migrate_if_needed`: CREATE TABLE IF NOT EXISTS
maintenance_items, guarded ADD COLUMN item_id, two indexes, version 3. -/
def migrate_v2_to_v3 (s : Store) : Store :=
  let s := if s.hasMaintenanceItemsTable then s else
    { s with hasMaintenanceItemsTable := true, maintenance_items := [] }
  let s := if s.itemsHasItemId then s else
    { s with itemsHasItemId := true,
             report_items := s.report_items.map (fun ri => { ri with item_id := none }) }
  let s := create_index_if_not_exists s "idx_items_active"
  let s := create_index_if_not_exists s "idx_report_items_item_id"
  set_schema_version s 3

/-- The `v < 4` block of `migrate_if_needed`: guarded ADD COLUMN for the three
resolution fields, one index, version 4. -/
def migrate_v3_to_v4 (s : Store) : Store :=
  let s := if s.itemsHasResolvedAt then s else
    { s with itemsHasResolvedAt := true,
             report_items := s.report_items.map (fun ri => { ri with resolved_at := none }) }
  let s := if s.itemsHasResolvedBy then s else
    { s with itemsHasResolvedBy := true,
             report_items := s.report_items.map (fun ri => { ri with resolved_by := none }) }
  let s := if s.itemsHasResolutionNote then s else
    { s with itemsHasResolutionNote := true,
             report_items := s.report_items.map (fun ri => { ri with resolution_note := none }) }
  let s := create_index_if_not_exists s "idx_report_items_resolved_at"
  set_schema_version s 4

/-- Embeds `migrate_if_needed(cur)` from app.py.  Note that, as in the source,
the local `v` is updated only after the v1→v2 step; the later steps re-test
the stale local value, which still drives them correctly because the
version stored in `schema_meta` is what a later run reads. -/
def migrate_if_needed (s : Store) : Store :=
  let s := ensure_schema_meta s
  let v := get_schema_version s
  let s := if v < 2 then migrate_v1_to_v2 s else s
  let v := if v < 2 then 2 else v
  let s := if v < 3 then migrate_v2_to_v3 s else s
  let s := if v < 4 then migrate_v3_to_v4 s else s
  s

/-- Helper for `normalize_item_name`: Python's `str.split()` with no
separator — split on runs of whitespace, discarding empty fields.  The
accumulator `cur` holds the characters of the current word, reversed. -/
def split_words (cur : List Char) : List Char → List (List Char)
  | [] => if cur.isEmpty then [] else [cur.reverse]
  | c :: cs =>
    if c.isWhitespace then
      if cur.isEmpty then split_words [] cs else cur.reverse :: split_words [] cs
    else split_words (c :: cur) cs

/-- Helper for `normalize_item_name`: Python's `" ".join(words)`. -/
def join_words : List (List Char) → List Char
  | [] => []
  | [w] => w
  | w :: ws => w ++ ' ' :: join_words ws

/-- Embeds `normalize_item_name(name) -> " ".join(name.strip().split())`. -/
def normalize_item_name (name : String) : String :=
  String.mk (join_words (split_words [] (py_strip name).toList))

/-- Embeds `item_exists(name)`: `SELECT 1 FROM maintenance_items WHERE
name = ? COLLATE NOCASE LIMIT 1` — case-insensitive (ASCII fold) match. -/
def item_exists (s : Store) (name : String) : Bool :=
  s.maintenance_items.any (fun it => ascii_lower it.name == ascii_lower name)

/-- Embeds `add_item(name)`: normalize, raise `ValueError("Item já
cadastrado.")` on a case-insensitive duplicate, otherwise insert the
normalized name, active, timestamped. -/
def add_item (now : String) (name : String) (s : Store) : Except String Store :=
  let name := normalize_item_name name
  if item_exists s name then
    Except.error "Item já cadastrado."
  else
    Except.ok { s with
      maintenance_items := s.maintenance_items ++
        [{ id := s.nextMaintItemId, name := name, active := true, created_at := now }],
      nextMaintItemId := s.nextMaintItemId + 1 }

/-- Effect of `add_item` on the database: a raised `ValueError` aborts before
any INSERT, leaving the store unchanged. -/
def add_item_apply (now : String) (name : String) (s : Store) : Store :=
  match add_item now name s with
  | Except.ok s2 => s2
  | Except.error _ => s

/-- Embeds `set_item_active(item_id, active)`. -/
def set_item_active (item_id : Nat) (active : Bool) (s : Store) : Store :=
  { s with maintenance_items :=
      s.maintenance_items.map (fun it =>
        if it.id = item_id then { it with active := active } else it) }

/-- Payload entry of `insert_report`: one selected checklist item. -/
structure PayloadRow where
  item_id : Option Nat
  item : String
  status : String
  note : String
deriving DecidableEq, Repr

/-- Helper for `insert_report`: the `executemany` over `items_payload`,
assigning consecutive AUTOINCREMENT rowids starting at `n`. -/
def mk_item_rows (rid : Nat) : Nat → List PayloadRow → List ReportItemRow
  | _, [] => []
  | n, p :: ps =>
    { id := n, report_id := rid, item_id := p.item_id, item := p.item,
      status := p.status, note := stripOrNone p.note,
      resolved_at := none, resolved_by := none, resolution_note := none }
      :: mk_item_rows rid (n + 1) ps

/-- Embeds `insert_report(report_date, floor, apt, technician,
items_payload)`: one `reports` row (room_code derived from floor/apt,
technician stripped) plus one `report_items` row per payload entry. -/
def insert_report (now : String) (report_date : String) (floor apt : Int)
    (technician : String) (items_payload : List PayloadRow) (s : Store) : Store :=
  let code := room_code floor apt
  let rid := s.nextReportId
  { s with
    reports := s.reports ++
      [{ id := rid, report_date := report_date, technician := py_strip technician,
         created_at := now, floor := some floor, apt := some apt,
         room_code := some code, room := none }],
    report_items := s.report_items ++ mk_item_rows rid s.nextReportItemId items_payload,
    nextReportId := rid + 1,
    nextReportItemId := s.nextReportItemId + items_payload.length }

/-- Embeds `resolve_pendency(report_item_id, resolved_by, resolution_note)`:
`UPDATE report_items SET resolved_at = ?, resolved_by = ?, resolution_note = ?
WHERE id = ? AND status = 'Problema' AND resolved_at IS NULL`. -/
def resolve_pendency (now : String) (report_item_id : Nat)
    (resolved_by resolution_note : String) (s : Store) : Store :=
  { s with report_items := s.report_items.map (fun ri =>
      if ri.id = report_item_id ∧ ri.status = "Problema" ∧ ri.resolved_at = none then
        { ri with resolved_at := some now, resolved_by := some (py_strip resolved_by),
                  resolution_note := stripOrNone resolution_note }
      else ri) }

/-- Embeds `insert_general_maintenance`. -/
def insert_general_maintenance (now : String)
    (maint_date place description status technician note : String) (s : Store) : Store :=
  { s with
    general_maintenance := s.general_maintenance ++
      [{ id := s.nextGmId, maint_date := maint_date, place := py_strip place,
         description := py_strip description, status := status,
         technician := py_strip technician, note := stripOrNone note,
         created_at := now, resolved_at := none, resolved_by := none,
         resolution_note := none }],
    nextGmId := s.nextGmId + 1 }

/-- Embeds `resolve_general_maintenance(gm_id, resolved_by, resolution_note)`:
`UPDATE general_maintenance SET status = 'Resolvido', resolved_at = ?,
resolved_by = ?, resolution_note = ? WHERE id = ?` — no guard on the
current state. -/
def resolve_general_maintenance (now : String) (gm_id : Nat)
    (resolved_by resolution_note : String) (s : Store) : Store :=
  { s with general_maintenance := s.general_maintenance.map (fun g =>
      if g.id = gm_id then
        { g with status := "Resolvido", resolved_at := some now,
                 resolved_by := some (py_strip resolved_by),
                 resolution_note := stripOrNone resolution_note }
      else g) }

/-- Item-side condition of the open-pendency WHERE clause:
`ri.status = 'Problema' AND ri.resolved_at IS NULL`. -/
def open_item (ri : ReportItemRow) : Bool :=
  ri.status == "Problema" && ri.resolved_at.isNone

/-- Row shape returned by `fetch_pendencies_open` (its SELECT list, with
`COALESCE(ri.note, '')`). -/
structure OpenPendencyRow where
  report_id : Nat
  report_date : String
  room_code : Option String
  floor : Option Int
  apt : Option Int
  technician : String
  created_at : String
  report_item_id : Nat
  item : String
  status : String
  note : String
deriving DecidableEq, Repr

/-- Row shape returned by `fetch_resolved` (its SELECT list, with COALESCE on
note, resolved_by and resolution_note). -/
structure ResolvedRow where
  report_id : Nat
  report_date : String
  room_code : Option String
  floor : Option Int
  apt : Option Int
  technician : String
  created_at : String
  item : String
  status : String
  note : String
  resolved_at : Option String
  resolved_by : String
  resolution_note : String
deriving DecidableEq, Repr

/-- Insertion step of a stable insertion sort. -/
def insert_sorted (le : α → α → Bool) (x : α) : List α → List α
  | [] => [x]
  | y :: ys => if le x y then x :: y :: ys else y :: insert_sorted le x ys

/-- Stable insertion sort, used to model the deterministic part of SQL
ORDER BY clauses. -/
def sort_by (le : α → α → Bool) : List α → List α
  | [] => []
  | x :: xs => insert_sorted le x (sort_by le xs)

/-- Comparator for `ORDER BY r.report_date DESC, r.room_code ASC, r.id DESC`
(NULL sorts first on an ascending TEXT column). -/
def open_row_le (a b : OpenPendencyRow) : Bool :=
  if a.report_date ≠ b.report_date then strLtB b.report_date a.report_date
  else if a.room_code ≠ b.room_code then optStrLtB a.room_code b.room_code
  else decide (b.report_id ≤ a.report_id)

/-- WHERE clause of `fetch_pendencies_open` for a fixed report row `r`:
the join condition, the inclusive date range, the item-side open condition
and the optional floor filter. -/
def matches_open (date_from date_to : String) (floor : Option Int)
    (r : ReportRow) (ri : ReportItemRow) : Bool :=
  (ri.report_id == r.id) && strLeB date_from r.report_date
    && strLeB r.report_date date_to && open_item ri
    && (match floor with | none => true | some f => r.floor == some f)

/-- Embeds `fetch_pendencies_open(date_from, date_to, floor)`. -/
def fetch_pendencies_open (date_from date_to : String) (floor : Option Int)
    (s : Store) : List OpenPendencyRow :=
  let rows := (s.reports.map (fun r =>
    (s.report_items.filter (matches_open date_from date_to floor r)).map (fun ri =>
      { report_id := r.id, report_date := r.report_date, room_code := r.room_code,
        floor := r.floor, apt := r.apt, technician := r.technician,
        created_at := r.created_at, report_item_id := ri.id, item := ri.item,
        status := ri.status, note := ri.note.getD "" }))).flatten
  sort_by open_row_le rows

/-- WHERE clause of `fetch_resolved` for a fixed report row `r`. -/
def matches_resolved (date_from date_to : String) (floor : Option Int)
    (r : ReportRow) (ri : ReportItemRow) : Bool :=
  (ri.report_id == r.id) && strLeB date_from r.report_date
    && strLeB r.report_date date_to && (ri.status == "Problema")
    && !ri.resolved_at.isNone
    && (match floor with | none => true | some f => r.floor == some f)

/-- Comparator for `ORDER BY ri.resolved_at DESC, r.room_code ASC`. -/
def resolved_row_le (a b : ResolvedRow) : Bool :=
  if a.resolved_at ≠ b.resolved_at then optStrLtB b.resolved_at a.resolved_at
  else optStrLeB a.room_code b.room_code

/-- Embeds `fetch_resolved(date_from, date_to, floor)`. -/
def fetch_resolved (date_from date_to : String) (floor : Option Int)
    (s : Store) : List ResolvedRow :=
  let rows := (s.reports.map (fun r =>
    (s.report_items.filter (matches_resolved date_from date_to floor r)).map (fun ri =>
      { report_id := r.id, report_date := r.report_date, room_code := r.room_code,
        floor := r.floor, apt := r.apt, technician := r.technician,
        created_at := r.created_at, item := ri.item, status := ri.status,
        note := ri.note.getD "", resolved_at := ri.resolved_at,
        resolved_by := ri.resolved_by.getD "",
        resolution_note := ri.resolution_note.getD "" }))).flatten
  sort_by resolved_row_le rows

/-- One write operation of the data-access layer. -/
inductive DbOp where
  | insertReport (now report_date : String) (floor apt : Int)
      (technician : String) (payload : List PayloadRow)
  | resolvePendency (now : String) (report_item_id : Nat) (rb rn : String)
  | addItem (now name : String)
  | setItemActive (item_id : Nat) (active : Bool)
  | insertGeneralMaintenance (now maint_date place description status technician note : String)
  | resolveGeneralMaintenance (now : String) (gm_id : Nat) (rb rn : String)

/-- Applies one data-access-layer write to the store. -/
def applyOp : DbOp → Store → Store
  | DbOp.insertReport now d f a t p, s => insert_report now d f a t p s
  | DbOp.resolvePendency now id rb rn, s => resolve_pendency now id rb rn s
  | DbOp.addItem now name, s => add_item_apply now name s
  | DbOp.setItemActive id act, s => set_item_active id act s
  | DbOp.insertGeneralMaintenance now d pl de st te no, s =>
      insert_general_maintenance now d pl de st te no s
  | DbOp.resolveGeneralMaintenance now id rb rn, s =>
      resolve_general_maintenance now id rb rn s

/-! ## Lemmas about the migration engine -/

lemma ensure_schema_meta_some (s : Store) (w : Nat) (h : s.schemaMeta = some w) :
    ensure_schema_meta s = s := by
  unfold ensure_schema_meta
  rw [h]

lemma ensure_schema_meta_isSome (s : Store) :
    ∃ w, (ensure_schema_meta s).schemaMeta = some w := by
  unfold ensure_schema_meta
  cases h : s.schemaMeta with
  | none => exact ⟨1, rfl⟩
  | some w => exact ⟨w, by rw [h]⟩

lemma migrate_v3_to_v4_schemaMeta (s : Store) :
    (migrate_v3_to_v4 s).schemaMeta = some 4 := rfl

lemma migrate_if_needed_schemaMeta (s : Store) :
    ∃ w, (migrate_if_needed s).schemaMeta = some w ∧ 4 ≤ w := by
  unfold migrate_if_needed
  obtain ⟨w, hw⟩ := ensure_schema_meta_isSome s
  by_cases h2 : get_schema_version (ensure_schema_meta s) < 2
  · simp only [h2, if_true]
    norm_num [migrate_v3_to_v4_schemaMeta]
  · simp only [h2, if_false]
    by_cases h3 : get_schema_version (ensure_schema_meta s) < 3
    · simp only [h3, if_true]
      by_cases h4 : get_schema_version (ensure_schema_meta s) < 4
      · simp only [h4, if_true]
        exact ⟨4, migrate_v3_to_v4_schemaMeta _, le_refl 4⟩
      · omega
    · simp only [h3, if_false]
      by_cases h4 : get_schema_version (ensure_schema_meta s) < 4
      · simp only [h4, if_true]
        exact ⟨4, migrate_v3_to_v4_schemaMeta _, le_refl 4⟩
      · simp only [h4, if_false]
        refine ⟨w, hw, ?_⟩
        have : get_schema_version (ensure_schema_meta s) = w := by
          unfold get_schema_version
          rw [hw]
          rfl
        omega

lemma migrate_if_needed_fixed (s : Store) (w : Nat)
    (h : s.schemaMeta = some w) (h4 : 4 ≤ w) :
    migrate_if_needed s = s := by
  unfold migrate_if_needed
  rw [ensure_schema_meta_some s w h]
  have hv : get_schema_version s = w := by
    unfold get_schema_version
    rw [h]
    rfl
  have n2 : ¬ w < 2 := by omega
  have n3 : ¬ w < 3 := by omega
  have n4 : ¬ w < 4 := by omega
  simp only [hv, n2, n3, n4, if_false]

/-- C1: running the migration routine twice in a row on the same store yields
exactly the state after the first run — the second run adds no column, index
or table, changes no row, and leaves `schema_meta.version` unchanged. -/
theorem migrate_if_needed_idempotent (s : Store) :
    migrate_if_needed (migrate_if_needed s) = migrate_if_needed s := by
  obtain ⟨w, hw, h4⟩ := migrate_if_needed_schemaMeta s
  exact migrate_if_needed_fixed _ w hw h4

@[simp] lemma create_index_if_not_exists_reports (s : Store) (n : String) :
    (create_index_if_not_exists s n).reports = s.reports := by
  unfold create_index_if_not_exists
  split <;> rfl

@[simp] lemma create_index_if_not_exists_report_items (s : Store) (n : String) :
    (create_index_if_not_exists s n).report_items = s.report_items := by
  unfold create_index_if_not_exists
  split <;> rfl

lemma migrate_v2_to_v3_reports (s : Store) :
    (migrate_v2_to_v3 s).reports = s.reports := by
  simp only [migrate_v2_to_v3, set_schema_version, create_index_if_not_exists]
  split_ifs <;> rfl

lemma migrate_v3_to_v4_reports (s : Store) :
    (migrate_v3_to_v4 s).reports = s.reports := by
  simp only [migrate_v3_to_v4, set_schema_version, create_index_if_not_exists]
  split_ifs <;> rfl

lemma migrate_v1_to_v2_reports (s : Store)
    (hfl : s.reportsHasFloor = false) (hap : s.reportsHasApt = false)
    (hrc : s.reportsHasRoomCode = false) (hrm : s.reportsHasRoom = true) :
    (migrate_v1_to_v2 s).reports =
      ((((s.reports.map (fun r => { r with floor := none })).map
          (fun r => { r with apt := none })).map
          (fun r => { r with room_code := none })).map backfill_floor_apt).map
          backfill_room_code := by
  unfold migrate_v1_to_v2 set_schema_version
  simp only [hfl, hap, hrc, hrm, Bool.false_eq_true, if_false, if_true,
    create_index_if_not_exists_reports]

/-- C2: a store frozen at schema version 1 whose report rows carry a legacy
`room` value has, after migration, every row's `floor`, `apt` and `room_code`
populated, the code equal to the zero-padded concatenation of its floor and
apt (which are derived from `room` by the truncating-division rule), and the
schema version at 4. -/
theorem migrate_from_v1_backfills (s : Store)
    (hv : s.schemaMeta = some 1)
    (hfl : s.reportsHasFloor = false) (hap : s.reportsHasApt = false)
    (hrc : s.reportsHasRoomCode = false) (hrm : s.reportsHasRoom = true)
    (hrows : ∀ r ∈ s.reports, ∃ m, r.room = some m) :
    (migrate_if_needed s).schemaMeta = some 4 ∧
    ∀ r2 ∈ (migrate_if_needed s).reports, ∃ m f a,
      r2.room = some m ∧ f = Int.tdiv (m - 1) 18 + 1 ∧ a = Int.tmod (m - 1) 18 + 1 ∧
      r2.floor = some f ∧ r2.apt = some a ∧ r2.room_code = some (room_code f a) := by
  have h1 : ensure_schema_meta s = s := ensure_schema_meta_some s 1 hv
  have hver : get_schema_version s = 1 := by
    unfold get_schema_version
    rw [hv]
    rfl
  have hmig : migrate_if_needed s =
      migrate_v3_to_v4 (migrate_v2_to_v3 (migrate_v1_to_v2 s)) := by
    unfold migrate_if_needed
    rw [h1]
    simp only [hver]
    norm_num
  constructor
  · rw [hmig]
    exact migrate_v3_to_v4_schemaMeta _
  · intro r2 hr2
    rw [hmig, migrate_v3_to_v4_reports, migrate_v2_to_v3_reports,
      migrate_v1_to_v2_reports s hfl hap hrc hrm] at hr2
    simp only [List.mem_map] at hr2
    obtain ⟨r, ⟨r1, ⟨r0, ⟨rb, ⟨ra, hra, rfl⟩, rfl⟩, rfl⟩, rfl⟩, rfl⟩ := hr2
    obtain ⟨m, hm⟩ := hrows ra hra
    refine ⟨m, Int.tdiv (m - 1) 18 + 1, Int.tmod (m - 1) 18 + 1, ?_, rfl, rfl, ?_, ?_, ?_⟩ <;>
      simp [backfill_floor_apt, backfill_room_code, hm, room_code]

set_option maxHeartbeats 1000000 in
set_option maxRecDepth 10000 in
/-- C3: for every legacy room number in [1, 216], converting to (floor, apt)
by the truncating-division rule, forming the zero-padded code, and re-deriving
(floor, apt) from the 4-character code reproduces the same pair. -/
theorem legacy_room_round_trip :
    ∀ room ∈ Finset.Icc (1 : Int) 216,
      decode_room_code
          (room_code (Int.tdiv (room - 1) 18 + 1) (Int.tmod (room - 1) 18 + 1)) =
        some (Int.tdiv (room - 1) 18 + 1, Int.tmod (room - 1) 18 + 1) := by
  decide

theorem legacy_room_round_trip_witness :
    (37 : Int) ∈ Finset.Icc (1 : Int) 216 ∧
    decode_room_code
        (room_code (Int.tdiv ((37 : Int) - 1) 18 + 1) (Int.tmod ((37 : Int) - 1) 18 + 1)) =
      some (Int.tdiv ((37 : Int) - 1) 18 + 1, Int.tmod ((37 : Int) - 1) 18 + 1) :=
  ⟨by decide, legacy_room_round_trip 37 (by decide)⟩

set_option maxHeartbeats 1000000 in
set_option maxRecDepth 10000 in
lemma decode_room_code_in_domain :
    ∀ f ∈ Finset.Icc (1 : Int) 12, ∀ a ∈ Finset.Icc (1 : Int) 18,
      decode_room_code (room_code f a) = some (f, a) := by
  decide

set_option maxHeartbeats 1000000 in
set_option maxRecDepth 10000 in
lemma room_code_length_in_domain :
    ∀ f ∈ Finset.Icc (1 : Int) 12, ∀ a ∈ Finset.Icc (1 : Int) 18,
      (room_code f a).length = 4 := by
  decide

/-- C4: for all (floor, apt) with floor in [1,12] and apt in [1,18],
`room_code` is a 4-character string and is injective over that domain. -/
theorem room_code_four_chars_and_injective :
    ∀ f ∈ Finset.Icc (1 : Int) 12, ∀ a ∈ Finset.Icc (1 : Int) 18,
      (room_code f a).length = 4 ∧
      ∀ f2 ∈ Finset.Icc (1 : Int) 12, ∀ a2 ∈ Finset.Icc (1 : Int) 18,
        room_code f a = room_code f2 a2 → f = f2 ∧ a = a2 := by
  intro f hf a ha
  refine ⟨room_code_length_in_domain f hf a ha, ?_⟩
  intro f2 hf2 a2 ha2 heq
  have h1 := decode_room_code_in_domain f hf a ha
  have h2 := decode_room_code_in_domain f2 hf2 a2 ha2
  rw [heq] at h1
  have h3 := h1.symm.trans h2
  simpa using h3

theorem room_code_four_chars_and_injective_witness :
    ((1 : Int) ∈ Finset.Icc (1 : Int) 12 ∧ (1 : Int) ∈ Finset.Icc (1 : Int) 18 ∧
     (2 : Int) ∈ Finset.Icc (1 : Int) 12 ∧ (3 : Int) ∈ Finset.Icc (1 : Int) 18) ∧
    (room_code 1 1).length = 4 ∧
    (room_code 1 1 = room_code 2 3 → (1 : Int) = 2 ∧ (1 : Int) = 3) :=
  ⟨by decide,
   (room_code_four_chars_and_injective 1 (by decide) 1 (by decide)).1,
   (room_code_four_chars_and_injective 1 (by decide) 1 (by decide)).2 2 (by decide) 3 (by decide)⟩

/-- A concrete store frozen at schema version 1: two historical report rows
carrying only a legacy `room` number. -/
def v1_demo_store : Store :=
  { schemaMeta := some 1,
    reports := [
      { id := 1, report_date := "2023-05-01", technician := "Gabriel",
        created_at := "2023-05-01T08:00:00", floor := none, apt := none,
        room_code := none, room := some 1 },
      { id := 2, report_date := "2023-05-02", technician := "Gabriel",
        created_at := "2023-05-02T08:00:00", floor := none, apt := none,
        room_code := none, room := some 216 }],
    report_items := [
      { id := 1, report_id := 1, item_id := none, item := "Cofre",
        status := "Problema", note := none, resolved_at := none,
        resolved_by := none, resolution_note := none }],
    maintenance_items := [], general_maintenance := [],
    reportsHasFloor := false, reportsHasApt := false, reportsHasRoomCode := false,
    reportsHasRoom := true, itemsHasItemId := false, itemsHasResolvedAt := false,
    itemsHasResolvedBy := false, itemsHasResolutionNote := false,
    hasMaintenanceItemsTable := false, indexes := [],
    nextReportId := 3, nextReportItemId := 2, nextMaintItemId := 1, nextGmId := 1 }

theorem migrate_from_v1_backfills_witness :
    (v1_demo_store.schemaMeta = some 1 ∧ v1_demo_store.reportsHasFloor = false ∧
     v1_demo_store.reportsHasApt = false ∧ v1_demo_store.reportsHasRoomCode = false ∧
     v1_demo_store.reportsHasRoom = true ∧
     (∀ r ∈ v1_demo_store.reports, ∃ m, r.room = some m)) ∧
    ((migrate_if_needed v1_demo_store).schemaMeta = some 4 ∧
     ∀ r2 ∈ (migrate_if_needed v1_demo_store).reports, ∃ m f a,
       r2.room = some m ∧ f = Int.tdiv (m - 1) 18 + 1 ∧ a = Int.tmod (m - 1) 18 + 1 ∧
       r2.floor = some f ∧ r2.apt = some a ∧ r2.room_code = some (room_code f a)) :=
  ⟨⟨rfl, rfl, rfl, rfl, rfl, by intro r hr; fin_cases hr <;> exact ⟨_, rfl⟩⟩,
   migrate_from_v1_backfills v1_demo_store rfl rfl rfl rfl rfl
     (by intro r hr; fin_cases hr <;> exact ⟨_, rfl⟩)⟩

/-- C5: `resolve_pendency` updates a report item only when it currently has
status "Problema" and a NULL `resolved_at`, stamping all three resolution
fields with the supplied time; any other row is untouched, and a second
resolve call on the same item changes nothing, so the first writer's stamps
survive. -/
theorem resolve_pendency_conditional (s : Store)
    (now1 rb1 rn1 now2 rb2 rn2 : String) (id : Nat) :
    resolve_pendency now2 id rb2 rn2 (resolve_pendency now1 id rb1 rn1 s) =
      resolve_pendency now1 id rb1 rn1 s ∧
    ∀ ri ∈ s.report_items,
      ((ri.id = id ∧ ri.status = "Problema" ∧ ri.resolved_at = none) →
        { ri with resolved_at := some now1, resolved_by := some (py_strip rb1),
                  resolution_note := stripOrNone rn1 } ∈
          (resolve_pendency now1 id rb1 rn1 s).report_items) ∧
      (¬ (ri.id = id ∧ ri.status = "Problema" ∧ ri.resolved_at = none) →
        ri ∈ (resolve_pendency now1 id rb1 rn1 s).report_items) := by
  constructor
  · simp only [resolve_pendency, List.map_map]
    congr 1
    apply List.map_congr_left
    intro ri _
    by_cases h : ri.id = id ∧ ri.status = "Problema" ∧ ri.resolved_at = none
    · simp only [Function.comp_apply, if_pos h]
      rw [if_neg]
      simp
    · simp only [Function.comp_apply, if_neg h]
  · intro ri hri
    constructor
    · intro h
      simp only [resolve_pendency, List.mem_map]
      exact ⟨ri, hri, by rw [if_pos h]⟩
    · intro h
      simp only [resolve_pendency, List.mem_map]
      exact ⟨ri, hri, by rw [if_neg h]⟩

/-- A store holding a single open "Problema" report item, for witnesses. -/
def pendency_demo_store : Store :=
  { schemaMeta := some 4,
    reports := [
      { id := 1, report_date := "2024-01-10", technician := "Ana",
        created_at := "2024-01-10T08:00:00", floor := some 1, apt := some 1,
        room_code := some "0101", room := none }],
    report_items := [
      { id := 1, report_id := 1, item_id := some 3, item := "Frigobar",
        status := "Problema", note := some "faz ruído", resolved_at := none,
        resolved_by := none, resolution_note := none }],
    maintenance_items := [], general_maintenance := [],
    reportsHasFloor := true, reportsHasApt := true, reportsHasRoomCode := true,
    reportsHasRoom := true, itemsHasItemId := true, itemsHasResolvedAt := true,
    itemsHasResolvedBy := true, itemsHasResolutionNote := true,
    hasMaintenanceItemsTable := true, indexes := [],
    nextReportId := 2, nextReportItemId := 2, nextMaintItemId := 1, nextGmId := 1 }

theorem resolve_pendency_conditional_witness :
    (resolve_pendency "2024-01-12T09:00:00" 1 "Carlos" "trocado" pendency_demo_store).report_items =
      [{ id := 1, report_id := 1, item_id := some 3, item := "Frigobar",
         status := "Problema", note := some "faz ruído",
         resolved_at := some "2024-01-12T09:00:00", resolved_by := some "Carlos",
         resolution_note := some "trocado" }] ∧
    resolve_pendency "2024-01-20T09:00:00" 1 "Beto" "de novo"
        (resolve_pendency "2024-01-12T09:00:00" 1 "Carlos" "trocado" pendency_demo_store) =
      resolve_pendency "2024-01-12T09:00:00" 1 "Carlos" "trocado" pendency_demo_store ∧
    ({ id := 1, report_id := 1, item_id := some 3, item := "Frigobar",
       status := "Problema", note := some "faz ruído",
       resolved_at := some "2024-01-12T09:00:00", resolved_by := some "Carlos",
       resolution_note := some "trocado" } : ReportItemRow) ∈
      (resolve_pendency "2024-01-12T09:00:00" 1 "Carlos" "trocado" pendency_demo_store).report_items :=
  ⟨by decide,
   (resolve_pendency_conditional pendency_demo_store
      "2024-01-12T09:00:00" "Carlos" "trocado" "2024-01-20T09:00:00" "Beto" "de novo" 1).1,
   by
    have h := ((resolve_pendency_conditional pendency_demo_store
      "2024-01-12T09:00:00" "Carlos" "trocado" "2024-01-20T09:00:00" "Beto" "de novo" 1).2
        { id := 1, report_id := 1, item_id := some 3, item := "Frigobar",
          status := "Problema", note := some "faz ruído", resolved_at := none,
          resolved_by := none, resolution_note := none }
        (by decide)).1 (by decide)
    exact h⟩

/-- C7: resolving a general-maintenance ticket unconditionally forces status
"Resolvido" and stamps the resolution fields for any row with the given id —
no guard on the current state — and re-running the operation simply re-stamps
with the new values, exactly as a single run with those values would. -/
theorem resolve_ticket_unconditional (s : Store)
    (now1 rb1 rn1 now2 rb2 rn2 : String) (id : Nat) :
    (∀ g ∈ s.general_maintenance, g.id = id →
      { g with status := "Resolvido", resolved_at := some now1,
               resolved_by := some (py_strip rb1),
               resolution_note := stripOrNone rn1 } ∈
        (resolve_general_maintenance now1 id rb1 rn1 s).general_maintenance) ∧
    resolve_general_maintenance now2 id rb2 rn2
        (resolve_general_maintenance now1 id rb1 rn1 s) =
      resolve_general_maintenance now2 id rb2 rn2 s := by
  constructor
  · intro g hg h
    simp only [resolve_general_maintenance, List.mem_map]
    exact ⟨g, hg, by rw [if_pos h]⟩
  · simp only [resolve_general_maintenance, List.map_map]
    congr 1
    apply List.map_congr_left
    intro g _
    simp only [Function.comp_apply]
    by_cases h : g.id = id
    · simp [h]
    · simp [h]

/-- A store holding one already-resolved general-maintenance ticket, for
witnesses. -/
def gm_demo_store : Store :=
  { schemaMeta := some 4, reports := [], report_items := [],
    maintenance_items := [],
    general_maintenance := [
      { id := 1, maint_date := "2024-02-01", place := "Recepção",
        description := "Troca de lâmpada", status := "Resolvido",
        technician := "Gabriel", note := none, created_at := "2024-02-01T08:00:00",
        resolved_at := some "2024-02-02T08:00:00", resolved_by := some "Ana",
        resolution_note := some "feito" }],
    reportsHasFloor := true, reportsHasApt := true, reportsHasRoomCode := true,
    reportsHasRoom := true, itemsHasItemId := true, itemsHasResolvedAt := true,
    itemsHasResolvedBy := true, itemsHasResolutionNote := true,
    hasMaintenanceItemsTable := true, indexes := [],
    nextReportId := 1, nextReportItemId := 1, nextMaintItemId := 1, nextGmId := 2 }

theorem resolve_ticket_unconditional_witness :
    ({ id := 1, maint_date := "2024-02-01", place := "Recepção",
       description := "Troca de lâmpada", status := "Resolvido",
       technician := "Gabriel", note := none, created_at := "2024-02-01T08:00:00",
       resolved_at := some "2024-03-01T10:00:00", resolved_by := some "Beto",
       resolution_note := some "refeito" } : GmRow) ∈
      (resolve_general_maintenance "2024-03-01T10:00:00" 1 "Beto" "refeito"
        gm_demo_store).general_maintenance ∧
    resolve_general_maintenance "2024-03-05T10:00:00" 1 "Caio" "outra vez"
        (resolve_general_maintenance "2024-03-01T10:00:00" 1 "Beto" "refeito" gm_demo_store) =
      resolve_general_maintenance "2024-03-05T10:00:00" 1 "Caio" "outra vez" gm_demo_store :=
  ⟨by
    have h := (resolve_ticket_unconditional gm_demo_store
      "2024-03-01T10:00:00" "Beto" "refeito" "x" "y" "z" 1).1
      { id := 1, maint_date := "2024-02-01", place := "Recepção",
        description := "Troca de lâmpada", status := "Resolvido",
        technician := "Gabriel", note := none, created_at := "2024-02-01T08:00:00",
        resolved_at := some "2024-02-02T08:00:00", resolved_by := some "Ana",
        resolution_note := some "feito" } (by decide) rfl
    exact h,
   (resolve_ticket_unconditional gm_demo_store
      "2024-03-01T10:00:00" "Beto" "refeito" "2024-03-05T10:00:00" "Caio" "outra vez" 1).2⟩

/-- C10: resolving a general-maintenance ticket whose id matches no row is a
silent no-op that leaves the store unchanged; when a row does match, it is
stored with `resolved_by` stripped of surrounding whitespace and with
`resolution_note` NULL when the note is blank after stripping. -/
theorem resolve_ticket_missing_id_noop (s : Store) (now rb rn : String) (id : Nat) :
    ((∀ g ∈ s.general_maintenance, g.id ≠ id) →
      resolve_general_maintenance now id rb rn s = s) ∧
    (∀ g ∈ s.general_maintenance, g.id = id →
      { g with status := "Resolvido", resolved_at := some now,
               resolved_by := some (py_strip rb),
               resolution_note := stripOrNone rn } ∈
        (resolve_general_maintenance now id rb rn s).general_maintenance) ∧
    (py_strip rn = "" → stripOrNone rn = none) ∧
    (py_strip rn ≠ "" → stripOrNone rn = some (py_strip rn)) := by
  refine ⟨?_, ?_, ?_, ?_⟩
  · intro hnone
    have hmap : s.general_maintenance.map (fun g =>
        if g.id = id then
          { g with status := "Resolvido", resolved_at := some now,
                   resolved_by := some (py_strip rb),
                   resolution_note := stripOrNone rn }
        else g) = s.general_maintenance := by
      conv_rhs => rw [← List.map_id s.general_maintenance]
      apply List.map_congr_left
      intro g hg
      simp [hnone g hg]
    simp only [resolve_general_maintenance, hmap]
  · intro g hg h
    simp only [resolve_general_maintenance, List.mem_map]
    exact ⟨g, hg, by rw [if_pos h]⟩
  · intro h
    simp [stripOrNone, h]
  · intro h
    simp [stripOrNone, h]

theorem resolve_ticket_missing_id_noop_witness :
    (∀ g ∈ gm_demo_store.general_maintenance, g.id ≠ 7) ∧
    resolve_general_maintenance "2024-03-01T10:00:00" 7 "Beto" "  " gm_demo_store =
      gm_demo_store ∧
    py_strip "  " = "" ∧ stripOrNone "  " = none :=
  ⟨by decide,
   (resolve_ticket_missing_id_noop gm_demo_store "2024-03-01T10:00:00" "Beto" "  " 7).1
     (by decide),
   by decide,
   (resolve_ticket_missing_id_noop gm_demo_store "2024-03-01T10:00:00" "Beto" "  " 7).2.2.1
     (by decide)⟩

/-- An empty store at the current schema version, as `init_db` leaves a fresh
database (before catalog seeding). -/
def fresh_store : Store :=
  { schemaMeta := some 4, reports := [], report_items := [],
    maintenance_items := [], general_maintenance := [],
    reportsHasFloor := true, reportsHasApt := true, reportsHasRoomCode := true,
    reportsHasRoom := true, itemsHasItemId := true, itemsHasResolvedAt := true,
    itemsHasResolvedBy := true, itemsHasResolutionNote := true,
    hasMaintenanceItemsTable := true, indexes := [],
    nextReportId := 1, nextReportItemId := 1, nextMaintItemId := 1, nextGmId := 1 }

/-- The store after Ana's report of 2024-01-10 for floor 1, apt 1 with one
"Problema" item. -/
def scenario_store_after_insert : Store :=
  insert_report "2024-01-10T10:00:00" "2024-01-10" 1 1 "Ana"
    [{ item_id := some 3, item := "Frigobar", status := "Problema", note := "faz ruído" }]
    fresh_store

/-- The store after Carlos resolves that pendency. -/
def scenario_store_after_resolve : Store :=
  resolve_pendency "2024-01-12T09:00:00" 1 "Carlos" "trocado" scenario_store_after_insert

/-- C9: end to end — the created report stores room_code "0101"; the open
pendency listing for January 2024 returns exactly that row; after Carlos
resolves it, the open listing is empty and the resolved listing returns
exactly that row with resolved_by = "Carlos". -/
theorem end_to_end_pendency_flow :
    scenario_store_after_insert.reports.map (fun r => r.room_code) = [some "0101"] ∧
    fetch_pendencies_open "2024-01-01" "2024-01-31" none scenario_store_after_insert =
      [{ report_id := 1, report_date := "2024-01-10", room_code := some "0101",
         floor := some 1, apt := some 1, technician := "Ana",
         created_at := "2024-01-10T10:00:00", report_item_id := 1,
         item := "Frigobar", status := "Problema", note := "faz ruído" }] ∧
    fetch_pendencies_open "2024-01-01" "2024-01-31" none scenario_store_after_resolve = [] ∧
    fetch_resolved "2024-01-01" "2024-01-31" none scenario_store_after_resolve =
      [{ report_id := 1, report_date := "2024-01-10", room_code := some "0101",
         floor := some 1, apt := some 1, technician := "Ana",
         created_at := "2024-01-10T10:00:00", item := "Frigobar",
         status := "Problema", note := "faz ruído",
         resolved_at := some "2024-01-12T09:00:00", resolved_by := "Carlos",
         resolution_note := "trocado" }] := by
  decide

/-- Resolution invariant of the `report_items` table: resolution fields are
populated only on rows whose status is "Problema". -/
def store_resolution_invariant (s : Store) : Prop :=
  ∀ ri ∈ s.report_items,
    (ri.resolved_at ≠ none ∨ ri.resolved_by ≠ none ∨ ri.resolution_note ≠ none) →
    ri.status = "Problema"

instance store_resolution_invariant_decidable (s : Store) :
    Decidable (store_resolution_invariant s) := by
  unfold store_resolution_invariant
  infer_instance

lemma mk_item_rows_resolution_none (rid : Nat) :
    ∀ n ps, ∀ ri ∈ mk_item_rows rid n ps,
      ri.resolved_at = none ∧ ri.resolved_by = none ∧ ri.resolution_note = none := by
  intro n ps
  induction ps generalizing n with
  | nil => intro ri h; simp [mk_item_rows] at h
  | cons p ps ih =>
    intro ri h
    rw [mk_item_rows, List.mem_cons] at h
    rcases h with rfl | h
    · exact ⟨rfl, rfl, rfl⟩
    · exact ih (n + 1) ri h

lemma add_item_apply_report_items (now name : String) (s : Store) :
    (add_item_apply now name s).report_items = s.report_items := by
  unfold add_item_apply add_item
  by_cases h : item_exists s (normalize_item_name name) = true
  · simp [h]
  · simp [h]

/-- C6: every data-access operation preserves the resolution invariant
(resolution fields populated only on "Problema" rows); a row whose
`resolved_at` is already set survives every operation unchanged at its
position (resolution is one-way — nothing clears it or re-opens the row);
and the open-pendency filter selects exactly
`status = "Problema" AND resolved_at IS NULL`. -/
theorem resolution_invariant_preserved (op : DbOp) (s : Store) :
    (store_resolution_invariant s → store_resolution_invariant (applyOp op s)) ∧
    (∀ i, ∀ h : i < s.report_items.length,
      (s.report_items.get ⟨i, h⟩).resolved_at ≠ none →
      (applyOp op s).report_items[i]? = some (s.report_items.get ⟨i, h⟩)) ∧
    (∀ ri : ReportItemRow,
      open_item ri = true ↔ (ri.status = "Problema" ∧ ri.resolved_at = none)) := by
  refine ⟨?_, ?_, ?_⟩
  · cases op with
    | insertReport now d f a t p =>
      intro hs ri hri
      simp only [applyOp, insert_report, List.mem_append] at hri
      rcases hri with hri | hri
      · exact hs ri hri
      · obtain ⟨h1, h2, h3⟩ :=
          mk_item_rows_resolution_none s.nextReportId s.nextReportItemId p ri hri
        intro hne
        rcases hne with hne | hne | hne
        · exact absurd h1 hne
        · exact absurd h2 hne
        · exact absurd h3 hne
    | resolvePendency now id rb rn =>
      intro hs ri hri
      simp only [applyOp, resolve_pendency, List.mem_map] at hri
      obtain ⟨ri0, hri0, rfl⟩ := hri
      by_cases h : ri0.id = id ∧ ri0.status = "Problema" ∧ ri0.resolved_at = none
      · rw [if_pos h]
        intro _
        exact h.2.1
      · rw [if_neg h]
        exact hs ri0 hri0
    | addItem now name =>
      intro hs ri hri
      rw [applyOp, add_item_apply_report_items] at hri
      exact hs ri hri
    | setItemActive id act =>
      intro hs ri hri
      exact hs ri hri
    | insertGeneralMaintenance now d pl de st te no =>
      intro hs ri hri
      exact hs ri hri
    | resolveGeneralMaintenance now id rb rn =>
      intro hs ri hri
      exact hs ri hri
  · cases op with
    | insertReport now d f a t p =>
      intro i h _
      simp only [applyOp, insert_report]
      rw [List.getElem?_append_left h]
      exact List.getElem?_eq_getElem h
    | resolvePendency now id rb rn =>
      intro i h hne
      simp only [applyOp, resolve_pendency]
      rw [List.getElem?_map, List.getElem?_eq_getElem h]
      simp only [Option.map_some']
      rw [if_neg]
      · rfl
      · intro hc
        exact hne hc.2.2
    | addItem now name =>
      intro i h _
      rw [applyOp, add_item_apply_report_items]
      exact List.getElem?_eq_getElem h
    | setItemActive id act =>
      intro i h _
      exact List.getElem?_eq_getElem h
    | insertGeneralMaintenance now d pl de st te no =>
      intro i h _
      exact List.getElem?_eq_getElem h
    | resolveGeneralMaintenance now id rb rn =>
      intro i h _
      exact List.getElem?_eq_getElem h
  · intro ri
    simp [open_item, Bool.and_eq_true, beq_iff_eq, Option.isNone_iff_eq_none]

/-- A store holding one already-resolved "Problema" report item, for the C6
witness. -/
def resolved_item_demo_store : Store :=
  { schemaMeta := some 4,
    reports := [
      { id := 1, report_date := "2024-01-10", technician := "Ana",
        created_at := "2024-01-10T08:00:00", floor := some 1, apt := some 1,
        room_code := some "0101", room := none }],
    report_items := [
      { id := 1, report_id := 1, item_id := some 2, item := "Cofre",
        status := "Problema", note := none,
        resolved_at := some "2024-01-11T08:00:00", resolved_by := some "Ana",
        resolution_note := some "ajustado" }],
    maintenance_items := [], general_maintenance := [],
    reportsHasFloor := true, reportsHasApt := true, reportsHasRoomCode := true,
    reportsHasRoom := true, itemsHasItemId := true, itemsHasResolvedAt := true,
    itemsHasResolvedBy := true, itemsHasResolutionNote := true,
    hasMaintenanceItemsTable := true, indexes := [],
    nextReportId := 2, nextReportItemId := 2, nextMaintItemId := 1, nextGmId := 1 }

theorem resolution_invariant_preserved_witness :
    store_resolution_invariant resolved_item_demo_store ∧
    store_resolution_invariant
      (applyOp (DbOp.resolvePendency "2024-02-01T00:00:00" 1 "Beto" "de novo")
        resolved_item_demo_store) ∧
    (applyOp (DbOp.resolvePendency "2024-02-01T00:00:00" 1 "Beto" "de novo")
        resolved_item_demo_store).report_items[0]? =
      some (resolved_item_demo_store.report_items.get ⟨0, by decide⟩) :=
  ⟨by decide,
   (resolution_invariant_preserved
      (DbOp.resolvePendency "2024-02-01T00:00:00" 1 "Beto" "de novo")
      resolved_item_demo_store).1 (by decide),
   (resolution_invariant_preserved
      (DbOp.resolvePendency "2024-02-01T00:00:00" 1 "Beto" "de novo")
      resolved_item_demo_store).2.1 0 (by decide) (by decide)⟩

/-- A character list starts with a non-whitespace character (or is empty). -/
def head_not_ws : List Char → Bool
  | [] => true
  | c :: _ => !c.isWhitespace

/-- No two adjacent whitespace characters occur in the list. -/
def no_double_ws : List Char → Bool
  | a :: b :: t => (!(a.isWhitespace && b.isWhitespace)) && no_double_ws (b :: t)
  | _ => true

/-- The list carries no leading or trailing whitespace and no internal run of
two or more whitespace characters — the shape `str.strip()` plus collapsing
of internal whitespace runs produces. -/
def ws_collapsed (l : List Char) : Bool :=
  head_not_ws l && head_not_ws l.reverse && no_double_ws l

lemma split_words_words (l : List Char) : ∀ cur, (∀ c ∈ cur, c.isWhitespace = false) →
    ∀ w ∈ split_words cur l, w ≠ [] ∧ ∀ c ∈ w, c.isWhitespace = false := by
  induction l with
  | nil =>
    intro cur hcur w hw
    rw [split_words] at hw
    by_cases hc : cur.isEmpty
    · rw [if_pos hc] at hw
      simp at hw
    · rw [if_neg hc] at hw
      rcases List.mem_singleton.mp hw with rfl
      refine ⟨?_, ?_⟩
      · simp only [ne_eq, List.reverse_eq_nil_iff]
        exact fun h => hc (by simp [h])
      · intro c hc2
        exact hcur c (List.mem_reverse.mp hc2)
  | cons c cs ih =>
    intro cur hcur w hw
    rw [split_words] at hw
    by_cases hws : c.isWhitespace
    · rw [if_pos hws] at hw
      by_cases hc : cur.isEmpty
      · rw [if_pos hc] at hw
        exact ih [] (by simp) w hw
      · rw [if_neg hc] at hw
        rcases List.mem_cons.mp hw with rfl | hw
        · refine ⟨?_, ?_⟩
          · simp only [ne_eq, List.reverse_eq_nil_iff]
            exact fun h => hc (by simp [h])
          · intro x hx
            exact hcur x (List.mem_reverse.mp hx)
        · exact ih [] (by simp) w hw
    · rw [if_neg hws] at hw
      refine ih (c :: cur) ?_ w hw
      intro x hx
      rcases List.mem_cons.mp hx with rfl | hx
      · exact Bool.eq_false_iff.mpr hws
      · exact hcur x hx

lemma no_double_ws_of_all (l : List Char) (h : ∀ c ∈ l, c.isWhitespace = false) :
    no_double_ws l = true := by
  induction l with
  | nil => rfl
  | cons a t ih =>
    cases t with
    | nil => rfl
    | cons b t2 =>
      rw [no_double_ws]
      have ha := h a (List.mem_cons_self a _)
      rw [ha]
      simp only [Bool.false_and, Bool.not_false, Bool.true_and]
      exact ih (fun c hc => h c (List.mem_cons_of_mem a hc))

lemma head_not_ws_append (l1 l2 : List Char) (h : l1 ≠ []) :
    head_not_ws (l1 ++ l2) = head_not_ws l1 := by
  cases l1 with
  | nil => exact absurd rfl h
  | cons a t => rfl

lemma no_double_ws_append_sep (jr : List Char)
    (hjr_head : head_not_ws jr = true) (hjr : no_double_ws jr = true) :
    ∀ w, (∀ c ∈ w, c.isWhitespace = false) → no_double_ws (w ++ ' ' :: jr) = true := by
  intro w
  induction w with
  | nil =>
    intro _
    cases jr with
    | nil => rfl
    | cons b t =>
      rw [List.nil_append, no_double_ws]
      have hb : b.isWhitespace = false := by
        rw [head_not_ws] at hjr_head
        simpa using hjr_head
      rw [hb]
      simpa using hjr
  | cons a w2 ih =>
    intro hall
    have ha := hall a (List.mem_cons_self a _)
    have hrest : ∀ c ∈ w2, c.isWhitespace = false :=
      fun c hc => hall c (List.mem_cons_of_mem a hc)
    cases w2 with
    | nil =>
      rw [List.cons_append, List.nil_append, no_double_ws, ha]
      simp only [Bool.false_and, Bool.not_false, Bool.true_and]
      exact ih (by simp)
    | cons b t =>
      have hcomp := ih hrest
      simp only [List.cons_append] at hcomp ⊢
      simp only [no_double_ws, ha]
      simp only [Bool.false_and, Bool.not_false, Bool.true_and]
      exact hcomp

lemma head_not_ws_of_all (l : List Char) (h : ∀ c ∈ l, c.isWhitespace = false) :
    head_not_ws l = true := by
  cases l with
  | nil => rfl
  | cons c t =>
    rw [head_not_ws]
    simp [h c (List.mem_cons_self c t)]

lemma join_words_props :
    ∀ ws : List (List Char),
      (∀ w ∈ ws, w ≠ [] ∧ ∀ c ∈ w, c.isWhitespace = false) → ws ≠ [] →
      join_words ws ≠ [] ∧ head_not_ws (join_words ws) = true ∧
      head_not_ws (join_words ws).reverse = true ∧
      no_double_ws (join_words ws) = true := by
  intro ws
  induction ws with
  | nil => intro _ h; exact absurd rfl h
  | cons w ws2 ih =>
    intro hall _
    have hw := hall w (List.mem_cons_self w ws2)
    cases ws2 with
    | nil =>
      simp only [join_words]
      refine ⟨hw.1, head_not_ws_of_all w hw.2, ?_, no_double_ws_of_all w hw.2⟩
      exact head_not_ws_of_all w.reverse (fun c hc => hw.2 c (List.mem_reverse.mp hc))
    | cons w2 ws3 =>
      have hrest : ∀ x ∈ w2 :: ws3, x ≠ [] ∧ ∀ c ∈ x, c.isWhitespace = false :=
        fun x hx => hall x (List.mem_cons_of_mem w hx)
      obtain ⟨hjr_ne, hjr_head, hjr_last, hjr_ndw⟩ := ih hrest (by simp)
      simp only [join_words]
      refine ⟨by simp, ?_, ?_, ?_⟩
      · rw [head_not_ws_append w _ hw.1]
        exact head_not_ws_of_all w hw.2
      · rw [List.reverse_append, List.reverse_cons, List.append_assoc]
        rw [head_not_ws_append _ _ (by simpa using hjr_ne)]
        exact hjr_last
      · exact no_double_ws_append_sep _ hjr_head hjr_ndw w hw.2

lemma normalize_item_name_collapsed (name : String) :
    ws_collapsed (normalize_item_name name).toList = true := by
  unfold normalize_item_name ws_collapsed
  have htl : (String.mk (join_words (split_words [] (py_strip name).toList))).toList =
      join_words (split_words [] (py_strip name).toList) := rfl
  rw [htl]
  cases h : split_words [] (py_strip name).toList with
  | nil => rfl
  | cons w ws2 =>
    obtain ⟨hne, hh, hl, hn⟩ := join_words_props (w :: ws2)
      (by
        intro x hx
        exact split_words_words (py_strip name).toList [] (by simp) x (h ▸ hx))
      (by simp)
    simp [hh, hl, hn]

/-- C8: `add_item` stores the whitespace-normalized name (which has no
leading or trailing whitespace and no internal whitespace run), and on a
case-insensitive duplicate fails with the distinct "Item já cadastrado."
signal while leaving the catalog unchanged. -/
theorem add_item_duplicate_rejected :
    (∀ (s : Store) (now name : String),
      item_exists s (normalize_item_name name) = true →
        add_item now name s = Except.error "Item já cadastrado." ∧
        add_item_apply now name s = s) ∧
    (∀ (s : Store) (now name : String),
      item_exists s (normalize_item_name name) = false →
        add_item now name s = Except.ok { s with
          maintenance_items := s.maintenance_items ++
            [{ id := s.nextMaintItemId, name := normalize_item_name name,
               active := true, created_at := now }],
          nextMaintItemId := s.nextMaintItemId + 1 }) ∧
    (∀ name : String, ws_collapsed (normalize_item_name name).toList = true) := by
  refine ⟨?_, ?_, normalize_item_name_collapsed⟩
  · intro s now name h
    constructor
    · simp only [add_item, h, if_true]
    · simp only [add_item_apply, add_item, h, if_true]
  · intro s now name h
    simp only [add_item, h, Bool.false_eq_true, if_false]

/-- A catalog already holding the item "Cofre", for the C8 witness. -/
def cofre_store : Store :=
  { schemaMeta := some 4, reports := [], report_items := [],
    maintenance_items := [
      { id := 1, name := "Cofre", active := true, created_at := "2024-01-01T00:00:00" }],
    general_maintenance := [],
    reportsHasFloor := true, reportsHasApt := true, reportsHasRoomCode := true,
    reportsHasRoom := true, itemsHasItemId := true, itemsHasResolvedAt := true,
    itemsHasResolvedBy := true, itemsHasResolutionNote := true,
    hasMaintenanceItemsTable := true, indexes := [],
    nextReportId := 1, nextReportItemId := 1, nextMaintItemId := 2, nextGmId := 1 }

theorem add_item_duplicate_rejected_witness :
    item_exists cofre_store (normalize_item_name "cofre") = true ∧
    add_item "2024-06-01T00:00:00" "cofre" cofre_store =
      Except.error "Item já cadastrado." ∧
    add_item_apply "2024-06-01T00:00:00" "cofre" cofre_store = cofre_store ∧
    ((add_item_apply "2024-06-01T00:00:00" "cofre" cofre_store).maintenance_items.filter
      (fun it => it.name == "Cofre")).length = 1 :=
  ⟨by decide,
   (add_item_duplicate_rejected.1 cofre_store "2024-06-01T00:00:00" "cofre" (by decide)).1,
   (add_item_duplicate_rejected.1 cofre_store "2024-06-01T00:00:00" "cofre" (by decide)).2,
   by decide⟩
